import Mathlib

/-!
Verification development for the study-buddy repository.

The repository's two locally meaningful behaviours are embedded here:

* the file-metadata store of `src/AssistantManager.py`
  (`load_file_metadata`, `save_file_metadata`,
  `upload_files_to_vector_store`, `clear_vector_store`), and
* the run poller `wait_for_run_completion` together with the message
  formatter `format_message`.

Remote API calls (run retrieval, message listing, vector-store listing,
file deletion, filename retrieval) are modelled as environment inputs:
every response the remote service could give is a possible input of the
embedded function.  Exceptions raised by library calls are modelled by
the corresponding branch of the embedding (an `Option`/sum-typed input
or an explicit error outcome), mirroring the `try`/`except` structure of
the Python source.
-/

/-! ## File-metadata store (`AssistantManager.py`, lines 62-235)

A Python `dict` preserves insertion order, so the metadata dictionary
`{vector_store_id: [{"file_path": p, "file_id": i}, ...]}` is embedded
as an insertion-ordered association list. -/

/-- One record of the metadata store: the Python dict
`{"file_path": p, "file_id": i}` built at lines 150-155. -/
structure FileRecord where
  file_path : String
  file_id : String
deriving Repr, DecidableEq

/-- The metadata dictionary: remote collection id to ordered record list. -/
abbrev Metadata := List (String × List FileRecord)

/-- Python `k in d` on the metadata dictionary. -/
def mdContains (md : Metadata) (k : String) : Bool :=
  md.any (fun e => e.1 == k)

/-- Python `d.get(k, [])` / `d[k]` on the metadata dictionary. -/
def mdGet (md : Metadata) (k : String) : List FileRecord :=
  match md.find? (fun e => e.1 == k) with
  | some e => e.2
  | none => []

/-- Python `d[k].append(r)` (the key is expected to be present). -/
def mdAppendRec (md : Metadata) (k : String) (r : FileRecord) : Metadata :=
  md.map (fun e => if e.1 == k then (e.1, e.2 ++ [r]) else e)

/-- `json.dump` of one record, with the default separators and the
insertion order `"file_path"` then `"file_id"` used at lines 150-155. -/
def serializeRecord (r : FileRecord) : String :=
  "\x7b\"file_path\": \"" ++ r.file_path ++ "\", \"file_id\": \"" ++ r.file_id ++ "\"\x7d"

/-- `json.dump` of a record list. -/
def serializeRecords (rs : List FileRecord) : String :=
  "[" ++ String.intercalate ", " (rs.map serializeRecord) ++ "]"

/-- `json.dump` of the whole metadata dictionary.  `serializeMetadata []`
is the two-character document written by `json.dump(\x7b\x7d, f)`. -/
def serializeMetadata (md : Metadata) : String :=
  "\x7b" ++ String.intercalate ", " (md.map (fun e => "\"" ++ e.1 ++ "\": " ++ serializeRecords e.2)) ++ "\x7d"

/-- `load_file_metadata` (lines 62-82).  The metadata file is an
`Option String` (`none` = the file does not exist); `parseJson` is the
environment's `json.load`, returning `none` exactly when the library
would raise `json.JSONDecodeError`.  The source returns the parsed
dictionary when the file exists, is non-empty and parses, and `\x7b\x7d`
in every other case (missing file, empty file, decode error). -/
def load_file_metadata (parseJson : String → Option Metadata) (file : Option String) : Metadata :=
  match file with
  | some content =>
    if content.length > 0 then
      match parseJson content with
      | some m => m
      | none => []
    else []
  | none => []

/-- `save_file_metadata` (lines 84-86): opening the file with mode `"w"`
truncates it, so the new content of the file is exactly the
serialization of the in-memory dictionary, whatever was there before. -/
def save_file_metadata (md : Metadata) : String :=
  serializeMetadata md

/-- One iteration of the metadata loop of
`upload_files_to_vector_store` (lines 145-155): ensure the key exists,
then append the `\x7bfile_path, file_id\x7d` record. -/
def uploadStepFn (vsid : String) (md : Metadata) (pr : String × String) : Metadata :=
  let md1 := if mdContains md vsid then md else md ++ [(vsid, [])]
  mdAppendRec md1 vsid ⟨pr.1, pr.2⟩

/-- `upload_files_to_vector_store` (lines 123-158).  Inputs: the current
`vector_store_id` (with Python truthiness: `none` and `""` are falsy),
the in-memory dictionary, the current metadata-file content, the list of
local paths, and `listed_ids` — the id list the remote service returns
from `get_file_ids_from_vector_store` (lines 160-179), i.e. the ids of
ALL files currently in the vector store.  Output: the new in-memory
dictionary and the new metadata-file content.  The source zips
`file_paths` with that full listing, appends one record per zipped pair
(skipping the loop when the listing is empty), and always ends with
`save_file_metadata`. -/
def upload_files_to_vector_store (vsid : Option String) (md : Metadata)
    (fileContent : Option String) (file_paths listed_ids : List String) :
    Metadata × Option String :=
  match vsid with
  | some id =>
    if id = "" then (md, fileContent)
    else
      let file_ids := listed_ids
      let md' := if file_ids.isEmpty then md
                 else (file_paths.zip file_ids).foldl (uploadStepFn id) md
      (md', some (save_file_metadata md'))
  | none => (md, fileContent)

/-- Result of `clear_vector_store`: the in-memory dictionary, the
metadata-file content, and the Python return value. -/
structure ClearResult where
  file_metadata : Metadata
  fileContent : Option String
  retval : Option (List String)
deriving Repr, DecidableEq

/-- `clear_vector_store` (lines 195-235).  The source re-reads the
metadata file (never `self.file_metadata`), deletes each listed file
remotely (`deleteOk` is the environment: whether each remote delete
succeeds), rewrites the file with `json.dump(\x7b\x7d, f)`, and returns
the successfully deleted paths.  Each path of the embedding mirrors the
source's exception flow:

* missing file: `open` raises, the outer `except` logs and returns
  `None`, the file is untouched;
* corrupt file: `json.load` raises, same outer path;
* no entry for the vector store: the per-file loop never runs, the file
  is rewritten to `\x7b\x7d` (lines 227-228), and then `logger.info`
  at line 229 raises `NameError` (the local `logger` is only bound
  inside the loop, line 218), so the outer `except` returns `None`;
* first remote delete fails: the inner `except` calls `logger.error`
  with `logger` still unbound, the `NameError` escapes to the outer
  `except`, and the function returns `None` with the file untouched;
* first remote delete succeeds: `logger` is bound, later failures are
  logged and skipped, the file is rewritten to `\x7b\x7d`, and the
  successfully deleted paths are returned. -/
def clear_vector_store (vsid : String) (md_mem : Metadata) (fileContent : Option String)
    (parseJson : String → Option Metadata) (deleteOk : String → Bool) : ClearResult :=
  match fileContent with
  | none => ⟨md_mem, none, none⟩
  | some content =>
    match parseJson content with
    | none => ⟨md_mem, some content, none⟩
    | some data =>
      match mdGet data vsid with
      | [] => ⟨md_mem, some (serializeMetadata []), none⟩
      | first :: rest =>
        if deleteOk first.file_id then
          ⟨md_mem, some (serializeMetadata []),
            some (first.file_path :: (rest.filter (fun r => deleteOk r.file_id)).map (fun r => r.file_path))⟩
        else
          ⟨md_mem, some content, none⟩

/-! ## Message formatting (`AssistantManager.py`, lines 318-352) -/

/-- One element of `message_content.annotations`: its `text`, whether it
carries a `file_citation` attribute, the string formatting of that
citation object, and the cited file id. -/
structure Anno where
  text : String
  isFileCitation : Bool
  citationRepr : String
  citationFileId : String
deriving Repr, DecidableEq

/-- `message.content[i].text`: a value and its annotations. -/
structure TextContent where
  value : String
  annos : List Anno
deriving Repr, DecidableEq

/-- A thread message as `format_message` sees it. -/
structure ApiMessage where
  content : List TextContent
deriving Repr, DecidableEq

/-- Line 336-338: `value.replace(annotation.text, f" [.index + 1.]")`
for the annotation at (0-based) index `ia.1`.  Python `str.replace`
replaces every occurrence. -/
def footnoteStep (v : String) (ia : Nat × Anno) : String :=
  v.replace ia.2.text (" [" ++ toString (ia.1 + 1) ++ "]")

/-- Lines 341-345: for a file-citation annotation, retrieve the cited
file's name (`rf` is the environment's `client.files.retrieve`) and
append the citation line. -/
def citeStep (rf : String → String) (cits : List String) (ia : Nat × Anno) : List String :=
  if ia.2.isFileCitation then
    cits ++ ["[" ++ toString (ia.1 + 1) ++ "] " ++ ia.2.citationRepr ++ " from " ++ rf ia.2.citationFileId]
  else cits

/-- `format_message` (lines 318-352): one pass over the enumerated
annotations updating the text and the citation list together, exactly as
the source's single `for` loop does.  `none` models the `IndexError`
raised by `message.content[0]` on an empty content list.  The returned
pair is (final `message_content.value`, gathered `citations`); the
source returns only the first component — line 348, which would have
appended the citations to the text, is commented out. -/
def format_message (rf : String → String) (message : ApiMessage) : Option (String × List String) :=
  match message.content with
  | [] => none
  | mc :: _ =>
    some (mc.annos.enum.foldl
      (fun acc ia => (footnoteStep acc.1 ia, citeStep rf acc.2 ia))
      (mc.value, ([] : List String)))

/-- The footnote substitution on its own: the text with each
annotation's `text` replaced by the marker `" [i]"`, `i` counted from 1
in annotation order, with no citation machinery at all. -/
def applyFootnotes (value : String) (annos : List Anno) : String :=
  annos.enum.foldl footnoteStep value

/-! ## Run poller (`AssistantManager.py`, lines 354-388)

Each loop iteration with a started run performs one
`client.beta.threads.runs.retrieve` call; the environment's response to
that call is one `PollEvent` of the trace.  With no started run the loop
performs no remote call, so the trace is not consumed.  The `while True`
loop is embedded with explicit fuel: `Outcome.running` means the fuel
ran out with the loop still going. -/

/-- The run object returned by `runs.retrieve`.  The source reads only
`completed_at` and `created_at`; `status` is carried because the remote
run has one, but no branch of the source inspects it. -/
structure Run where
  created_at : Nat
  completed_at : Option Nat
  status : String
deriving Repr, DecidableEq

/-- Python truthiness of `run.completed_at` (line 367): `None` and `0`
are falsy. -/
def truthyCompletedAt (r : Run) : Bool :=
  match r.completed_at with
  | some t => t != 0
  | none => false

/-- The started run handle `self.run` (only its `id` is used). -/
structure RunHandle where
  id : String
deriving Repr, DecidableEq

/-- The environment's response to one `runs.retrieve` call:
either a run object together with the message list that
`threads.messages.list` would return at that moment (line 376, queried
only in the completed branch), or an exception raised by the retrieval
(network/API error), carrying its message. -/
inductive PollEvent where
  | ok (r : Run) (msgs : List ApiMessage)
  | exn (msg : String)
deriving Repr, DecidableEq

/-- How the loop ended: `completed` via the `break` of the completed
branch, `errored` via the `break` of the `except` handler, `running`
when the fuel (or the supplied trace) ended first. -/
inductive Outcome where
  | completed
  | errored
  | running
deriving Repr, DecidableEq

/-- State of `wait_for_run_completion` when it stops: the exit kind, the
final value of the local variable `response` (line 380), the Python
return value (the function body has no `return` statement, so it is
`none` on every path), the error messages logged by the `except`
handler, the number of "Waiting for run to complete..." log lines, the
list of sleep durations in order, and the number of `runs.retrieve`
calls issued. -/
structure PollResult where
  outcome : Outcome
  responseLocal : Option String
  retval : Option String
  errorLog : List String
  waitingLogs : Nat
  sleeps : List Nat
  queries : Nat
deriving Repr, DecidableEq

/-- The polling loop of `wait_for_run_completion` (lines 361-388).
Per iteration: with no started run the `try` body does nothing and the
loop logs and sleeps; with a started run it retrieves the run (consuming
one trace event).  An exception exits via the `except` handler.  A run
with truthy `completed_at` enters the completed branch: `messages.data[0]`
on an empty list raises `IndexError` (caught by the same handler), as
does `message.content[0]` inside `format_message`; otherwise the
formatted text lands in the local `response` and the loop breaks.  A run
with falsy `completed_at` falls through to the log-and-sleep tail. -/
def pollLoop (rf : String → String) (sleep_interval : Nat) (run : Option RunHandle)
    (trace : List PollEvent) (fuel : Nat) : PollResult :=
  match fuel with
  | 0 => ⟨.running, none, none, [], 0, [], 0⟩
  | Nat.succ fuel' =>
    match run with
    | none =>
      let rest := pollLoop rf sleep_interval none trace fuel'
      { rest with waitingLogs := rest.waitingLogs + 1, sleeps := sleep_interval :: rest.sleeps }
    | some h =>
      match trace with
      | [] => ⟨.running, none, none, [], 0, [], 0⟩
      | e :: trace' =>
        match e with
        | .exn m => ⟨.errored, none, none, [m], 0, [], 1⟩
        | .ok r msgs =>
          if truthyCompletedAt r then
            match msgs with
            | [] => ⟨.errored, none, none, ["IndexError"], 0, [], 1⟩
            | m0 :: _ =>
              match format_message rf m0 with
              | none => ⟨.errored, none, none, ["IndexError"], 0, [], 1⟩
              | some (resp, _) => ⟨.completed, some resp, none, [], 0, [], 1⟩
          else
            let rest := pollLoop rf sleep_interval (some h) trace' fuel'
            { rest with waitingLogs := rest.waitingLogs + 1,
                        sleeps := sleep_interval :: rest.sleeps,
                        queries := rest.queries + 1 }

/-- `wait_for_run_completion` (lines 354-388): the loop with the
default `sleep_interval=5`. -/
def wait_for_run_completion (rf : String → String) (run : Option RunHandle)
    (trace : List PollEvent) (fuel : Nat) (sleep_interval : Nat := 5) : PollResult :=
  pollLoop rf sleep_interval run trace fuel

/-- An event on which the loop's `try` body leaves the loop: an
exception, or a run whose `completed_at` is truthy (the completed branch
always breaks, either with the response or through the handler). -/
def exitTrigger : PollEvent → Bool
  | .exn _ => true
  | .ok r _ => truthyCompletedAt r

/-- Overwrite the `status` field of the run carried by an event; used to
state that the remote job's status never influences the loop. -/
def setEventStatus (s : String) : PollEvent → PollEvent
  | .ok r msgs => .ok { r with status := s } msgs
  | .exn m => .exn m

/-! ## Helper lemmas: metadata dictionary -/

theorem mdGet_cons (e : String × List FileRecord) (t : Metadata) (k : String) :
    mdGet (e :: t) k = if e.1 == k then e.2 else mdGet t k := by
  simp only [mdGet, List.find?]
  cases he : (e.1 == k) <;> simp [he]

theorem mdContains_cons (e : String × List FileRecord) (t : Metadata) (k : String) :
    mdContains (e :: t) k = ((e.1 == k) || mdContains t k) := by
  simp [mdContains]

theorem mdAppendRec_cons (e : String × List FileRecord) (t : Metadata) (k : String)
    (r : FileRecord) :
    mdAppendRec (e :: t) k r
      = (if e.1 == k then (e.1, e.2 ++ [r]) else e) :: mdAppendRec t k r := rfl

theorem mdContains_false_mdGet (md : Metadata) (k : String)
    (h : mdContains md k = false) : mdGet md k = [] := by
  induction md with
  | nil => rfl
  | cons e t ih =>
    rw [mdContains_cons, Bool.or_eq_false_iff] at h
    rw [mdGet_cons, h.1]
    simpa using ih h.2

theorem mdContains_append_self (md : Metadata) (k : String) :
    mdContains (md ++ [(k, [])]) k = true := by
  simp [mdContains, List.any_append]

theorem mdGet_append_new (md : Metadata) (k : String)
    (h : mdContains md k = false) : mdGet (md ++ [(k, [])]) k = [] := by
  induction md with
  | nil => simp [mdGet_cons]
  | cons e t ih =>
    rw [mdContains_cons, Bool.or_eq_false_iff] at h
    rw [List.cons_append, mdGet_cons, h.1]
    simpa using ih h.2

theorem mdGet_mdAppendRec (md : Metadata) (k : String) (r : FileRecord)
    (h : mdContains md k = true) :
    mdGet (mdAppendRec md k r) k = mdGet md k ++ [r] := by
  induction md with
  | nil => simp [mdContains] at h
  | cons e t ih =>
    cases he : (e.1 == k) with
    | true =>
      rw [mdAppendRec_cons]
      simp [mdGet_cons, he]
    | false =>
      rw [mdContains_cons, he, Bool.false_or] at h
      rw [mdAppendRec_cons]
      simp only [he, Bool.false_eq_true, if_false]
      rw [mdGet_cons, mdGet_cons, he]
      simp only [Bool.false_eq_true, if_false]
      exact ih h

theorem uploadStepFn_mdGet (vsid : String) (md : Metadata) (pr : String × String) :
    mdGet (uploadStepFn vsid md pr) vsid = mdGet md vsid ++ [⟨pr.1, pr.2⟩] := by
  unfold uploadStepFn
  cases hc : mdContains md vsid with
  | true => simp only [hc, if_true]; exact mdGet_mdAppendRec md vsid _ hc
  | false =>
    simp only [hc, Bool.false_eq_true, if_false]
    rw [mdGet_mdAppendRec _ _ _ (mdContains_append_self md vsid),
      mdGet_append_new md vsid hc, mdContains_false_mdGet md vsid hc]

theorem foldl_uploadStep_mdGet (vsid : String) :
    ∀ (prs : List (String × String)) (md : Metadata),
      mdGet (prs.foldl (uploadStepFn vsid) md) vsid
        = mdGet md vsid ++ prs.map (fun pr => FileRecord.mk pr.1 pr.2) := by
  intro prs
  induction prs with
  | nil => intro md; simp
  | cons p t ih =>
    intro md
    simp only [List.foldl_cons, List.map_cons]
    rw [ih, uploadStepFn_mdGet]
    simp

/-! ## Claims about the metadata store -/

/-- C3: for every metadata file whose content exists, is non-empty, and
is not a well-formed JSON document (the parse raises
`json.JSONDecodeError`, modelled as `parseJson content = none`),
`load_file_metadata` returns the empty store; the embedding is total, so
the load never fails. -/
theorem C3_corrupt_document_empty_store (parseJson : String → Option Metadata)
    (content : String) (hne : content.length > 0) (hbad : parseJson content = none) :
    load_file_metadata parseJson (some content) = [] := by
  simp [load_file_metadata, hne, hbad]

theorem C3_witness :
    ("nonsense".length > 0 ∧ (fun _ : String => (none : Option Metadata)) "nonsense" = none)
      ∧ load_file_metadata (fun _ => none) (some "nonsense") = [] :=
  ⟨⟨by decide, rfl⟩, C3_corrupt_document_empty_store (fun _ => none) "nonsense" (by decide) rfl⟩

/-- C4 counterexample: a second upload into a non-empty store.  The
remote store already holds `a.txt` under id `file-1`; uploading
`b.txt` makes the remote assign it the fresh id `file-2`, so the full
listing returned by `get_file_ids_from_vector_store` is
`["file-1", "file-2"]` (insertion order).  The source zips the new path
list `["b.txt"]` with that full listing, so the appended record pairs
`b.txt` with `file-1` — the id of `a.txt` — and the correctly paired
record `(b.txt, file-2)` is nowhere in the store.  This refutes the
claim that after every sequence of uploads each uploaded path is paired
with the remote id assigned to that same file. -/
theorem C4_counterexample :
    mdGet (upload_files_to_vector_store (some "vs")
        [("vs", [⟨"a.txt", "file-1"⟩])]
        (some (serializeMetadata [("vs", [⟨"a.txt", "file-1"⟩])]))
        ["b.txt"]
        ([("a.txt", "file-1"), ("b.txt", "file-2")].map Prod.snd)).1 "vs"
      = [⟨"a.txt", "file-1"⟩, ⟨"b.txt", "file-1"⟩]
    ∧ FileRecord.mk "b.txt" "file-2" ∉
        mdGet (upload_files_to_vector_store (some "vs")
          [("vs", [⟨"a.txt", "file-1"⟩])]
          (some (serializeMetadata [("vs", [⟨"a.txt", "file-1"⟩])]))
          ["b.txt"]
          ([("a.txt", "file-1"), ("b.txt", "file-2")].map Prod.snd)).1 "vs" := by
  constructor
  · rfl
  · decide

/-- C4 amended: after `upload_files_to_vector_store`, the store entry
for the vector-store id is the previous entry with, appended in order,
one record per element of `zip(file_paths, listed_ids)`, where
`listed_ids` is the id list of the FULL vector-store listing at upload
time — the i-th uploaded path is paired positionally with the i-th id of
that complete listing (and with nothing when the zip truncates), not
necessarily with the id the remote service assigned to that file.  Only
when the listing returns exactly the uploaded batch's ids in upload
order (e.g. a first upload into an empty store under insertion-ordered
listing) does this coincide with the claimed per-file pairing. -/
theorem C4_upload_zip_full_listing (vsid : String) (md : Metadata) (fc : Option String)
    (paths listed : List String) (hv : vsid ≠ "") :
    mdGet (upload_files_to_vector_store (some vsid) md fc paths listed).1 vsid
      = mdGet md vsid ++ (paths.zip listed).map (fun pr => FileRecord.mk pr.1 pr.2) := by
  simp only [upload_files_to_vector_store, hv, if_false]
  cases hl : listed.isEmpty with
  | true =>
    rw [List.isEmpty_iff] at hl
    subst hl
    simp
  | false =>
    simp only [hl, Bool.false_eq_true, if_false]
    exact foldl_uploadStep_mdGet vsid (paths.zip listed) md

theorem C4_upload_zip_full_listing_witness :
    ("vs" ≠ "")
      ∧ mdGet (upload_files_to_vector_store (some "vs") [] none
            ["a.txt", "b.txt"] ["file-1", "file-2"]).1 "vs"
          = mdGet ([] : Metadata) "vs"
              ++ ([("a.txt", "file-1"), ("b.txt", "file-2")].map
                    (fun pr => FileRecord.mk pr.1 pr.2)) :=
  ⟨by decide, C4_upload_zip_full_listing "vs" [] none ["a.txt", "b.txt"] ["file-1", "file-2"] (by decide)⟩

/-- C5: every mutation of the metadata store persists by rewriting the
whole document.  (a) `upload_files_to_vector_store` always ends with
`save_file_metadata`, so the persisted content is exactly the
serialization of the full resulting store; (b) the result is the same
whatever the file's prior content was (nothing is read back or
appended); (c) whenever `clear_vector_store` succeeds, the persisted
content is exactly the serialization of the empty store. -/
theorem C5_whole_document_overwrite (vsid : String) (md : Metadata)
    (prior prior' : Option String) (paths listed : List String)
    (md_mem : Metadata) (fc : Option String)
    (parseJson : String → Option Metadata) (deleteOk : String → Bool)
    (hv : vsid ≠ "") :
    ((upload_files_to_vector_store (some vsid) md prior paths listed).2
        = some (serializeMetadata (upload_files_to_vector_store (some vsid) md prior paths listed).1))
    ∧ upload_files_to_vector_store (some vsid) md prior paths listed
        = upload_files_to_vector_store (some vsid) md prior' paths listed
    ∧ ((clear_vector_store vsid md_mem fc parseJson deleteOk).retval.isSome →
        (clear_vector_store vsid md_mem fc parseJson deleteOk).fileContent
          = some (serializeMetadata [])) := by
  refine ⟨?_, ?_, ?_⟩
  · simp [upload_files_to_vector_store, hv, save_file_metadata]
  · simp [upload_files_to_vector_store, hv]
  · unfold clear_vector_store
    cases fc with
    | none => simp
    | some content =>
      cases hp : parseJson content with
      | none => simp [hp]
      | some data =>
        cases hm : mdGet data vsid with
        | nil => simp [hp, hm]
        | cons first rest =>
          cases hd : deleteOk first.file_id with
          | true => simp [hp, hm, hd]
          | false => simp [hp, hm, hd]

theorem C5_whole_document_overwrite_witness :
    ("vs" ≠ "")
      ∧ ((upload_files_to_vector_store (some "vs") [] (some "old stale text") ["a.txt"] ["file-1"]).2
          = some (serializeMetadata (upload_files_to_vector_store (some "vs") [] (some "old stale text") ["a.txt"] ["file-1"]).1))
      ∧ upload_files_to_vector_store (some "vs") [] (some "old stale text") ["a.txt"] ["file-1"]
          = upload_files_to_vector_store (some "vs") [] (some "other prior") ["a.txt"] ["file-1"]
      ∧ ((clear_vector_store "vs" [] (some "doc") (fun _ => some [("vs", [⟨"a.txt", "file-1"⟩])]) (fun _ => true)).retval.isSome →
          (clear_vector_store "vs" [] (some "doc") (fun _ => some [("vs", [⟨"a.txt", "file-1"⟩])]) (fun _ => true)).fileContent
            = some (serializeMetadata [])) :=
  ⟨by decide, C5_whole_document_overwrite "vs" [] (some "old stale text") (some "other prior")
    ["a.txt"] ["file-1"] [] (some "doc") (fun _ => some [("vs", [⟨"a.txt", "file-1"⟩])])
    (fun _ => true) (by decide)⟩

/-- C8: a successful `clear_vector_store` (it returns the deleted-path
list) rewrites the persisted document to the serialization of the empty
mapping, yet leaves the manager's in-memory `file_metadata` exactly as
it was: the function only reads the file into a local variable and never
assigns `self.file_metadata`, so after a clear the memory still holds
the pre-clear entries and diverges from the now-empty disk store. -/
theorem C8_clear_preserves_memory (vsid : String) (md_mem : Metadata) (fc : Option String)
    (parseJson : String → Option Metadata) (deleteOk : String → Bool)
    (hsucc : (clear_vector_store vsid md_mem fc parseJson deleteOk).retval.isSome) :
    (clear_vector_store vsid md_mem fc parseJson deleteOk).fileContent
        = some (serializeMetadata [])
    ∧ (clear_vector_store vsid md_mem fc parseJson deleteOk).file_metadata = md_mem := by
  unfold clear_vector_store at hsucc ⊢
  cases fc with
  | none => simp at hsucc
  | some content =>
    cases hp : parseJson content with
    | none => simp [hp] at hsucc
    | some data =>
      cases hm : mdGet data vsid with
      | nil => simp [hp, hm] at hsucc
      | cons first rest =>
        cases hd : deleteOk first.file_id with
        | true => simp [hp, hm, hd]
        | false => simp [hp, hm, hd] at hsucc

theorem C8_clear_preserves_memory_witness :
    ((clear_vector_store "vs" [("vs", [⟨"a.txt", "file-1"⟩])] (some "doc")
        (fun _ => some [("vs", [⟨"a.txt", "file-1"⟩])]) (fun _ => true)).retval.isSome)
      ∧ (clear_vector_store "vs" [("vs", [⟨"a.txt", "file-1"⟩])] (some "doc")
          (fun _ => some [("vs", [⟨"a.txt", "file-1"⟩])]) (fun _ => true)).fileContent
            = some (serializeMetadata [])
      ∧ (clear_vector_store "vs" [("vs", [⟨"a.txt", "file-1"⟩])] (some "doc")
          (fun _ => some [("vs", [⟨"a.txt", "file-1"⟩])]) (fun _ => true)).file_metadata
            = [("vs", [⟨"a.txt", "file-1"⟩])] :=
  ⟨by decide, C8_clear_preserves_memory "vs" [("vs", [⟨"a.txt", "file-1"⟩])] (some "doc")
    (fun _ => some [("vs", [⟨"a.txt", "file-1"⟩])]) (fun _ => true) (by decide)⟩

/-! ## Helper lemmas: polling loop -/

theorem pollLoop_sleeps_eq (rf : String → String) (si : Nat) (run : Option RunHandle) :
    ∀ (fuel : Nat) (trace : List PollEvent),
      (pollLoop rf si run trace fuel).sleeps
        = List.replicate (pollLoop rf si run trace fuel).waitingLogs si := by
  intro fuel
  induction fuel with
  | zero => intro trace; rfl
  | succ fuel ih =>
    intro trace
    cases run with
    | none =>
      simp only [pollLoop, List.replicate_succ]
      exact congrArg (List.cons si) (ih trace)
    | some h =>
      cases trace with
      | nil => rfl
      | cons e t =>
        cases e with
        | exn m => rfl
        | ok r msgs =>
          cases hc : truthyCompletedAt r with
          | true =>
            cases msgs with
            | nil => simp [pollLoop, hc]
            | cons m0 ms =>
              cases hfm : format_message rf m0 with
              | none => simp [pollLoop, hc, hfm]
              | some p =>
                cases p with
                | mk a b => simp [pollLoop, hc, hfm]
          | false =>
            simp only [pollLoop, hc, Bool.false_eq_true, if_false, List.replicate_succ]
            exact congrArg (List.cons si) (ih t)

theorem pollLoop_status_irrel (rf : String → String) (si : Nat) (s : String)
    (run : Option RunHandle) :
    ∀ (fuel : Nat) (trace : List PollEvent),
      pollLoop rf si run (trace.map (setEventStatus s)) fuel
        = pollLoop rf si run trace fuel := by
  intro fuel
  induction fuel with
  | zero => intro trace; rfl
  | succ fuel ih =>
    intro trace
    cases run with
    | none => simp only [pollLoop]; rw [ih trace]
    | some h =>
      cases trace with
      | nil => rfl
      | cons e t =>
        cases e with
        | exn m => rfl
        | ok r msgs =>
          have hstat : truthyCompletedAt { r with status := s } = truthyCompletedAt r := rfl
          simp only [List.map_cons, setEventStatus, pollLoop, hstat]
          cases hc : truthyCompletedAt r with
          | true => rfl
          | false =>
            simp only [hc, Bool.false_eq_true, if_false]
            rw [ih t]

theorem pollLoop_running_iff (rf : String → String) (si : Nat) (h : RunHandle) :
    ∀ (fuel : Nat) (trace : List PollEvent),
      ((pollLoop rf si (some h) trace fuel).outcome = Outcome.running
        ↔ ∀ e ∈ trace.take fuel, exitTrigger e = false) := by
  intro fuel
  induction fuel with
  | zero => intro trace; simp [pollLoop]
  | succ fuel ih =>
    intro trace
    cases trace with
    | nil => simp [pollLoop]
    | cons e t =>
      cases e with
      | exn m => simp [pollLoop, exitTrigger]
      | ok r msgs =>
        cases hc : truthyCompletedAt r with
        | true =>
          cases msgs with
          | nil => simp [pollLoop, hc, exitTrigger]
          | cons m0 ms =>
            cases hfm : format_message rf m0 with
            | none => simp [pollLoop, hc, hfm, exitTrigger]
            | some p =>
              cases p with
              | mk a b => simp [pollLoop, hc, hfm, exitTrigger]
        | false =>
          simp only [pollLoop, hc, Bool.false_eq_true, if_false, List.take_succ_cons,
            List.mem_cons]
          constructor
          · intro hr e' he'
            rcases he' with rfl | he'
            · simp [exitTrigger, hc]
            · exact ((ih t).mp (by simpa using hr)) e' he'
          · intro hall
            have hrun := (ih t).mpr (fun e' he' => hall e' (Or.inr he'))
            simpa using hrun

theorem foldl_pair_split (rf : String → String) :
    ∀ (ps : List (Nat × Anno)) (v : String) (cs : List String),
      ps.foldl (fun acc ia => (footnoteStep acc.1 ia, citeStep rf acc.2 ia)) (v, cs)
        = (ps.foldl footnoteStep v, ps.foldl (citeStep rf) cs) := by
  intro ps
  induction ps with
  | nil => intro v cs; rfl
  | cons p t ih => intro v cs; simp only [List.foldl_cons]; exact ih _ _

/-! ## Claims about the poller and the formatter -/

/-- C1 counterexample: a run in the errored terminal state `"failed"`
(`failed_at` set remotely, `completed_at` unset) does not stop the
loop.  Polling a job that sits in that state for four iterations leaves
the loop still running after four status queries: the source never
inspects `run.status` and only breaks on a truthy `completed_at` or on a
raised exception, so the claim that the loop stops when the job reaches
an errored terminal state is false. -/
theorem C1_counterexample :
    (Run.mk 100 none "failed").status = "failed"
    ∧ truthyCompletedAt (Run.mk 100 none "failed") = false
    ∧ (pollLoop (fun _ => "") 5 (some ⟨"run_1"⟩)
        (List.replicate 4 (PollEvent.ok (Run.mk 100 none "failed") [])) 4).outcome
      = Outcome.running
    ∧ (pollLoop (fun _ => "") 5 (some ⟨"run_1"⟩)
        (List.replicate 4 (PollEvent.ok (Run.mk 100 none "failed") [])) 4).queries = 4 :=
  ⟨rfl, rfl, rfl, rfl⟩

/-- C1 amended: with a started run, the loop is still running after
`fuel` iterations exactly when no polled response in that window is an
exit trigger — an exception, or a run with truthy `completed_at` (the
completed branch then breaks, with the result or through the `except`
handler).  Moreover the remote job's status field never influences the
loop: replacing every polled status (e.g. by a terminal `"failed"`)
leaves the poller's behaviour unchanged, so exits are *not* aligned with
the job's terminal states — an unset `completed_at` keeps the loop
going whatever the status, and an exception exits it whatever the
status. -/
theorem C1_exit_condition (rf : String → String) (si : Nat) (h : RunHandle) (s : String)
    (trace : List PollEvent) (fuel : Nat) :
    ((pollLoop rf si (some h) trace fuel).outcome = Outcome.running
        ↔ ∀ e ∈ trace.take fuel, exitTrigger e = false)
    ∧ pollLoop rf si (some h) (trace.map (setEventStatus s)) fuel
        = pollLoop rf si (some h) trace fuel :=
  ⟨pollLoop_running_iff rf si h fuel trace, pollLoop_status_irrel rf si s (some h) fuel trace⟩

/-- C2 counterexample: on a completing trace the loop formats the most
recent message into the local variable `response` (line 380), but the
function body has no `return` statement, so the caller receives `None`,
not the formatted text. -/
theorem C2_counterexample :
    (pollLoop (fun _ => "") 5 (some ⟨"run_1"⟩)
        [PollEvent.ok (Run.mk 10 (some 110) "completed")
          [ApiMessage.mk [TextContent.mk "hello" []]]] 1).responseLocal
      = some "hello"
    ∧ (pollLoop (fun _ => "") 5 (some ⟨"run_1"⟩)
        [PollEvent.ok (Run.mk 10 (some 110) "completed")
          [ApiMessage.mk [TextContent.mk "hello" []]]] 1).retval
      = none
    ∧ (pollLoop (fun _ => "") 5 (some ⟨"run_1"⟩)
        [PollEvent.ok (Run.mk 10 (some 110) "completed")
          [ApiMessage.mk [TextContent.mk "hello" []]]] 1).retval
      ≠ some "hello" :=
  ⟨rfl, rfl, by decide⟩

/-- C2 amended: when the polled run has a truthy `completed_at`, the
loop immediately (after that single query, with no further sleep)
retrieves the thread's messages, formats the most recent one with
`format_message`, stores the result in the local variable `response`,
and breaks; the formatted text is not returned to the caller — the
Python return value is `None` on this path as on every other. -/
theorem C2_completed_formats_without_return (rf : String → String) (si : Nat)
    (h : RunHandle) (r : Run) (m0 : ApiMessage) (ms : List ApiMessage)
    (trace : List PollEvent) (fuel : Nat)
    (hc : truthyCompletedAt r = true) (hm : m0.content ≠ []) :
    pollLoop rf si (some h) (PollEvent.ok r (m0 :: ms) :: trace) (fuel + 1)
      = ⟨Outcome.completed, (format_message rf m0).map Prod.fst, none, [], 0, [], 1⟩ := by
  obtain ⟨a, b, hfm⟩ : ∃ a b, format_message rf m0 = some (a, b) := by
    cases hcon : m0.content with
    | nil => exact absurd hcon hm
    | cons tc cs =>
      exact ⟨tc.annos.enum.foldl footnoteStep tc.value, tc.annos.enum.foldl (citeStep rf) [],
        by simp [format_message, hcon, foldl_pair_split]⟩
  simp [pollLoop, hc, hfm]

theorem C2_completed_formats_without_return_witness :
    (truthyCompletedAt (Run.mk 10 (some 110) "completed") = true
      ∧ (ApiMessage.mk [TextContent.mk "hello" []]).content ≠ [])
    ∧ pollLoop (fun _ => "") 5 (some ⟨"run_1"⟩)
        (PollEvent.ok (Run.mk 10 (some 110) "completed")
          [ApiMessage.mk [TextContent.mk "hello" []]] :: []) (0 + 1)
      = ⟨Outcome.completed,
          (format_message (fun _ => "") (ApiMessage.mk [TextContent.mk "hello" []])).map Prod.fst,
          none, [], 0, [], 1⟩ :=
  ⟨⟨by decide, by decide⟩,
    C2_completed_formats_without_return (fun _ => "") 5 ⟨"run_1"⟩
      (Run.mk 10 (some 110) "completed") (ApiMessage.mk [TextContent.mk "hello" []]) [] [] 0
      (by decide) (by decide)⟩

/-- C6: every sleep the poller performs has the same constant duration
`sleep_interval` — the sleep list is a replication of that one constant,
one sleep per non-terminal iteration (each taken after the
"Waiting for run to complete..." log and before the next status query),
with no backoff; and `wait_for_run_completion`'s default interval is 5
seconds. -/
theorem C6_fixed_sleep_interval (rf : String → String) (si : Nat) (run : Option RunHandle)
    (trace : List PollEvent) (fuel : Nat) :
    (pollLoop rf si run trace fuel).sleeps
        = List.replicate (pollLoop rf si run trace fuel).waitingLogs si
    ∧ (wait_for_run_completion rf run trace fuel).sleeps
        = List.replicate (wait_for_run_completion rf run trace fuel).waitingLogs 5 :=
  ⟨pollLoop_sleeps_eq rf si run fuel trace, pollLoop_sleeps_eq rf 5 run fuel trace⟩

/-- C7: when a status retrieval raises after any number of quiet
(non-exiting) iterations, the loop logs exactly that error and breaks at
once: the total number of `runs.retrieve` calls is the failed one plus
the earlier quiet ones — no further query, no retry — and no
cancellation request is ever issued (the exit state is fully described
by the error break). -/
theorem C7_retrieve_error_exits_immediately (rf : String → String) (si : Nat)
    (h : RunHandle) (m : String) (post : List PollEvent) :
    ∀ (pre : List PollEvent) (fuel : Nat),
      (∀ e ∈ pre, exitTrigger e = false) → pre.length < fuel →
      pollLoop rf si (some h) (pre ++ PollEvent.exn m :: post) fuel
        = ⟨Outcome.errored, none, none, [m], pre.length,
            List.replicate pre.length si, pre.length + 1⟩ := by
  intro pre
  induction pre with
  | nil =>
    intro fuel _ hf
    cases fuel with
    | zero => omega
    | succ fuel => rfl
  | cons e pre ih =>
    intro fuel hall hf
    cases fuel with
    | zero => simp at hf
    | succ fuel =>
      have he : exitTrigger e = false := hall e (List.mem_cons_self e pre)
      cases e with
      | exn m2 => simp [exitTrigger] at he
      | ok r msgs =>
        have hc : truthyCompletedAt r = false := by simpa [exitTrigger] using he
        have hlen : pre.length < fuel := by
          simp only [List.length_cons] at hf
          omega
        have hrest := ih fuel (fun e2 he2 => hall e2 (List.mem_cons_of_mem _ he2)) hlen
        simp only [List.cons_append, pollLoop, hc, Bool.false_eq_true, if_false]
        rw [hrest]
        simp [List.replicate_succ]

theorem C7_retrieve_error_exits_immediately_witness :
    ((∀ e ∈ [PollEvent.ok (Run.mk 0 none "in_progress") []], exitTrigger e = false)
      ∧ List.length [PollEvent.ok (Run.mk 0 none "in_progress") []] < 3)
    ∧ pollLoop (fun _ => "") 5 (some ⟨"run_1"⟩)
        ([PollEvent.ok (Run.mk 0 none "in_progress") []] ++ PollEvent.exn "boom" :: []) 3
      = ⟨Outcome.errored, none, none, ["boom"], 1, List.replicate 1 5, 2⟩ :=
  ⟨⟨by decide, by decide⟩,
    C7_retrieve_error_exits_immediately (fun _ => "") 5 ⟨"run_1"⟩ "boom" []
      [PollEvent.ok (Run.mk 0 none "in_progress") []] 3 (by decide) (by decide)⟩

/-- C9: `format_message` returns the message text with the footnote
substitution applied — each annotation's `text` replaced by the marker
`" [i]"`, `i` counted from 1 in annotation order (`applyFootnotes`,
which contains no citation machinery) — while the citation strings it
gathers for file-citation annotations are only the discarded second
component: the returned text is independent of the citation retrieval
(`rf` vs `rf2`) and never has the citation list appended (line 348 of
the source is commented out). -/
theorem C9_footnote_markers_citations_not_appended (rf rf2 : String → String)
    (mc : TextContent) (rest : List TextContent) :
    (format_message rf (ApiMessage.mk (mc :: rest))).map Prod.fst
        = some (applyFootnotes mc.value mc.annos)
    ∧ (format_message rf (ApiMessage.mk (mc :: rest))).map Prod.snd
        = some (mc.annos.enum.foldl (citeStep rf) [])
    ∧ (format_message rf (ApiMessage.mk (mc :: rest))).map Prod.fst
        = (format_message rf2 (ApiMessage.mk (mc :: rest))).map Prod.fst := by
  refine ⟨?_, ?_, ?_⟩ <;> simp [format_message, applyFootnotes, foldl_pair_split]

/-- C10: with no started run (`self.run is None`), the `try` body is a
no-op on every iteration: no status query is ever issued, no branch can
`break`, and the loop only logs and sleeps forever — for every fuel the
loop is still running, having slept once per iteration and queried zero
times. -/
theorem C10_no_started_run_never_exits (rf : String → String) (si : Nat)
    (trace : List PollEvent) :
    ∀ fuel : Nat,
      pollLoop rf si none trace fuel
        = ⟨Outcome.running, none, none, [], fuel, List.replicate fuel si, 0⟩ := by
  intro fuel
  induction fuel with
  | zero => rfl
  | succ fuel ih => simp [pollLoop, ih, List.replicate_succ]
